import Mathlib

/-!
Verification of the Stitch admin API client (`src/api/stitch.go`).

The Go file is a thin HTTP-binding layer.  We embed it shallowly:

* the transport (`Client.ExecuteRequest`) is a function from a `Request` to
  either a transport failure or a `Response`; a response body is either an
  unreadable stream (a read error) or its full byte content as a string;
* every domain operation returns, besides its Go result, the list of requests
  it issued and the list of response-body ids it closed, so that resource and
  route claims are stated over observable traces;
* `encoding/json` and `mime` are external Go libraries; the fragments the
  client exercises (one JSON value per body, unmarshalling into the shapes the
  client decodes, media-type parameter lists) are modelled by executable
  parsers below, written with explicit fuel so everything computes.
-/

/-- A JSON value, as produced by decoding one value from a body.  Number
tokens are kept as their source text since the client never inspects them. -/
inductive Json where
  | null
  | bool (b : Bool)
  | num (tok : String)
  | str (s : String)
  | arr (elems : List Json)
  | obj (fields : List (String × Json))

/-- The opening brace character, written by code so that no brace appears in a
string literal. -/
def lbrace : Char := Char.ofNat 123

/-- The closing brace character. -/
def rbrace : Char := Char.ofNat 125

/-- JSON insignificant whitespace. -/
def isWsChar (c : Char) : Bool :=
  c = ' ' || c = '\t' || c = '\n' || c = '\r'

/-- Drop leading JSON whitespace. -/
def skipWs : List Char → List Char
  | [] => []
  | c :: cs => if isWsChar c then skipWs cs else c :: cs

/-- Value of one hexadecimal digit. -/
def hexVal (c : Char) : Option Nat :=
  if '0' ≤ c ∧ c ≤ '9' then some (c.toNat - '0'.toNat)
  else if 'a' ≤ c ∧ c ≤ 'f' then some (c.toNat - 'a'.toNat + 10)
  else if 'A' ≤ c ∧ c ≤ 'F' then some (c.toNat - 'A'.toNat + 10)
  else none

/-- Single-character JSON string escapes. -/
def escChar (e : Char) : Option Char :=
  if e = '"' then some '"'
  else if e = '\\' then some '\\'
  else if e = '/' then some '/'
  else if e = 'n' then some '\n'
  else if e = 't' then some '\t'
  else if e = 'r' then some '\r'
  else if e = 'b' then some (Char.ofNat 8)
  else if e = 'f' then some (Char.ofNat 12)
  else none

/-- Parse the remainder of a JSON string literal (the opening quote already
consumed); yields the decoded characters and the rest of the input. -/
def parseJStr : Nat → List Char → Option (List Char × List Char)
  | 0, _ => none
  | _ + 1, [] => none
  | fuel + 1, c :: cs =>
    if c = '"' then some ([], cs)
    else if c = '\\' then
      match cs with
      | [] => none
      | e :: cs2 =>
        if e = 'u' then
          match cs2 with
          | h1 :: h2 :: h3 :: h4 :: cs3 =>
            match hexVal h1, hexVal h2, hexVal h3, hexVal h4 with
            | some a, some b, some c3, some d =>
              (parseJStr fuel cs3).map
                (fun p => (Char.ofNat (((a * 16 + b) * 16 + c3) * 16 + d) :: p.1, p.2))
            | _, _, _, _ => none
          | _ => none
        else
          match escChar e with
          | none => none
          | some d => (parseJStr fuel cs2).map (fun p => (d :: p.1, p.2))
    else (parseJStr fuel cs).map (fun p => (c :: p.1, p.2))

/-- Match a literal suffix (as in `true`, `false`, `null`) and require that no
identifier character follows it. -/
def litMatches : List Char → List Char → Option (List Char)
  | [], [] => some []
  | [], c :: rest => if c.isAlphanum then none else some (c :: rest)
  | _ :: _, [] => none
  | l :: ls, c :: rest => if c = l then litMatches ls rest else none

/-- Characters a JSON number token may contain. -/
def isNumChar (c : Char) : Bool :=
  c.isDigit || c = '-' || c = '+' || c = '.' || c = 'e' || c = 'E'

/-- Parser modes: one value, array elements (start / after a comma), object
fields (start / after a comma). -/
inductive PMode where
  | value
  | arrStart
  | arrNext
  | objStart
  | objNext

/-- Parser outputs for the modes of `PMode`. -/
inductive POut where
  | val (j : Json)
  | elems (xs : List Json)
  | fields (fs : List (String × Json))

/-- Fuel-indexed JSON parser covering the value grammar the client's bodies
use.  Returns the parsed output and the unconsumed input. -/
def parseCore : Nat → PMode → List Char → Option (POut × List Char)
  | 0, _, _ => none
  | fuel + 1, PMode.value, cs =>
    match skipWs cs with
    | [] => none
    | c :: rest =>
      if c = '"' then
        (parseJStr fuel rest).map (fun p => (POut.val (Json.str (String.mk p.1)), p.2))
      else if c = lbrace then
        match parseCore fuel PMode.objStart rest with
        | some (POut.fields fs, r) => some (POut.val (Json.obj fs), r)
        | _ => none
      else if c = '[' then
        match parseCore fuel PMode.arrStart rest with
        | some (POut.elems xs, r) => some (POut.val (Json.arr xs), r)
        | _ => none
      else if c = 't' then
        (litMatches ['r', 'u', 'e'] rest).map (fun r => (POut.val (Json.bool true), r))
      else if c = 'f' then
        (litMatches ['a', 'l', 's', 'e'] rest).map (fun r => (POut.val (Json.bool false), r))
      else if c = 'n' then
        (litMatches ['u', 'l', 'l'] rest).map (fun r => (POut.val Json.null, r))
      else if c.isDigit || c = '-' then
        some (POut.val (Json.num (String.mk ((c :: rest).takeWhile isNumChar))),
          (c :: rest).dropWhile isNumChar)
      else none
  | fuel + 1, PMode.arrStart, cs =>
    match skipWs cs with
    | ']' :: r => some (POut.elems [], r)
    | cs1 => parseCore fuel PMode.arrNext cs1
  | fuel + 1, PMode.arrNext, cs =>
    match parseCore fuel PMode.value cs with
    | some (POut.val j, r) =>
      (match skipWs r with
       | ',' :: r2 =>
         match parseCore fuel PMode.arrNext r2 with
         | some (POut.elems xs, r3) => some (POut.elems (j :: xs), r3)
         | _ => none
       | ']' :: r2 => some (POut.elems [j], r2)
       | _ => none)
    | _ => none
  | fuel + 1, PMode.objStart, cs =>
    match skipWs cs with
    | [] => none
    | c :: r =>
      if c = rbrace then some (POut.fields [], r)
      else parseCore fuel PMode.objNext (c :: r)
  | fuel + 1, PMode.objNext, cs =>
    match skipWs cs with
    | '"' :: r0 =>
      match parseJStr fuel r0 with
      | some (kcs, r1) =>
        (match skipWs r1 with
         | ':' :: r2 =>
           match parseCore fuel PMode.value r2 with
           | some (POut.val j, r3) =>
             (match skipWs r3 with
              | ',' :: r4 =>
                match parseCore fuel PMode.objNext r4 with
                | some (POut.fields fs, r5) =>
                  some (POut.fields ((String.mk kcs, j) :: fs), r5)
                | _ => none
              | c :: r4 =>
                if c = rbrace then some (POut.fields [(String.mk kcs, j)], r4) else none
              | [] => none)
           | _ => none
         | _ => none)
      | none => none
    | _ => none

/-- Decode one JSON value from a body, as Go's `json.Decoder.Decode` does:
leading whitespace is skipped, input after the first value is ignored, and an
empty or whitespace-only body fails (Go's `io.EOF`). -/
def goJsonDecodeOne (s : String) : Option Json :=
  match parseCore (s.length * 4 + 16) PMode.value s.data with
  | some (POut.val j, _) => some j
  | _ => none

/-- Lower-case a string character by character (Go's case-insensitive JSON
field matching and `mime`'s attribute lowering). -/
def lowerStr (s : String) : String := String.mk (s.data.map Char.toLower)

/-- One step of unmarshalling a JSON object into `errStitchResponseData`
(struct with the single field `Error string` tagged `error`): keys matching
`error` case-insensitively set the field from a string (later keys override,
`null` is a no-op), any other value type is a type error; unknown keys are
ignored. -/
def unmarshalErrField (acc : Option String) (f : String × Json) : Option String :=
  match acc with
  | none => none
  | some cur =>
    if lowerStr f.1 = "error" then
      match f.2 with
      | Json.str s => some s
      | Json.null => some cur
      | _ => none
    else some cur

/-- Go's `json.Unmarshal` of one JSON value into `errStitchResponseData`: the
value must be an object (or `null`, which leaves the zero value ""); the
result is the decoded `Error` field. -/
def unmarshalErrData : Json → Option String
  | Json.null => some ""
  | Json.obj fs => fs.foldl unmarshalErrField (some "")
  | _ => none

/-- Decoding an error body into `ErrStitchResponse` (its custom
`UnmarshalJSON` delegates to `json.Unmarshal` into the data struct): `some`
message when decoding succeeds, `none` when it fails for any reason. -/
def decodeErrStitchBody (s : String) : Option String :=
  (goJsonDecodeOne s).bind unmarshalErrData

/-- Quote a string as Go's `%q` verb does for the printable characters the
client's identifiers use (backslash-escaping quotes, backslashes and the
common control characters). -/
def goQuoteChar (c : Char) : List Char :=
  if c = '"' then ['\\', '"']
  else if c = '\\' then ['\\', '\\']
  else if c = '\n' then ['\\', 'n']
  else if c = '\t' then ['\\', 't']
  else if c = '\r' then ['\\', 'r']
  else [c]

/-- Go `%q` quoting of a string. -/
def goQuote (s : String) : String :=
  "\"" ++ String.mk (s.data.map goQuoteChar).flatten ++ "\""

/-- The error values the client produces, one constructor per construction
site; `message` below is Go's `Error()` string for each. -/
inductive GoErr where
  | stitch (msg : String)
  | ioRead (msg : String)
  | decode (msg : String)
  | mimeErr (msg : String)
  | transport (msg : String)
  | marshal (msg : String)
  | exportMissingFilename
  | notFound (clientAppID : String)
  | authFailed (status : String) (inner : GoErr)
deriving DecidableEq

/-- `Error()` of each error value: `ErrStitchResponse.Error` formats
"error: " followed by the data's `Error` field; `errExportMissingFilename`
and the not-found error carry their `errors.New` / `fmt.Errorf` texts;
`Authenticate`'s failure interpolates the inner error's own `Error()`. -/
def GoErr.message : GoErr → String
  | GoErr.stitch msg => "error: " ++ msg
  | GoErr.ioRead msg => msg
  | GoErr.decode msg => msg
  | GoErr.mimeErr msg => msg
  | GoErr.transport msg => msg
  | GoErr.marshal msg => msg
  | GoErr.exportMissingFilename => "the app export response did not specify a filename"
  | GoErr.notFound clientAppID => "unable to find app with ID: " ++ goQuote clientAppID
  | GoErr.authFailed status inner => status ++ ": failed to authenticate: " ++ inner.message

/-- `UnmarshalReader` (src/api/stitch.go lines 48-62): read the whole body;
a read failure is returned as that I/O error; otherwise decode the buffered
bytes into an `ErrStitchResponse`, falling back to the raw buffered text as
the message when decoding fails. -/
def UnmarshalReader (r : Except String String) : GoErr :=
  match r with
  | Except.error e => GoErr.ioRead e
  | Except.ok s =>
    match decodeErrStitchBody s with
    | some msg => GoErr.stitch msg
    | none => GoErr.stitch s

deriving instance DecidableEq for Except

/-- One request handed to `Client.ExecuteRequest`: method, full URL, raw body
bytes ("" when no body is set) and the explicitly set headers. -/
structure Request where
  method : String
  url : String
  body : String
  headers : List (String × String)
deriving DecidableEq

/-- One `http.Response` as the client reads it: status code, status line text
(`res.Status`), the `Content-Disposition` header value (the only header the
client reads; "" when absent) and the body — either unreadable (a read error)
or its full content.  `id` identifies the body stream so that closing can be
traced. -/
structure Response where
  id : Nat
  statusCode : Nat
  status : String
  contentDisposition : String
  body : Except String String
deriving DecidableEq

/-- What running one domain operation produced: its Go return value, the
requests it handed to the transport in order, and the ids of the response
bodies it closed before returning. -/
structure OpResult (α : Type) where
  result : Except GoErr α
  requests : List Request
  closed : List Nat

/-- The ids of the responses the transport actually returned for a list of
issued requests (a transport failure produces no response and so no body). -/
def receivedIds (exec : Request → Except String Response) (reqs : List Request) : List Nat :=
  reqs.filterMap (fun r =>
    match exec r with
    | Except.ok res => some res.id
    | Except.error _ => none)

/-- Modelled from the spec: the admin base URL constant (`adminBaseURL`) is
defined in the api package outside src/; routes are specified relative to it. -/
def adminBaseURL : String := "https://stitch.mongodb.com/api/admin/v3.0"

/-- `authProviderLoginRoute` with its `%s` substituted. -/
def authProviderLoginRoute (providerType : String) : String :=
  adminBaseURL ++ "/auth/providers/" ++ providerType ++ "/login"

/-- `appExportRoute` with its `%s`s substituted. -/
def appExportRoute (groupID appID : String) : String :=
  adminBaseURL ++ "/groups/" ++ groupID ++ "/apps/" ++ appID ++ "/export"

/-- `appImportRoute` with its `%s`s substituted. -/
def appImportRoute (groupID appID : String) : String :=
  adminBaseURL ++ "/groups/" ++ groupID ++ "/apps/" ++ appID ++ "/import"

/-- `appsByGroupIDRoute` with its `%s` substituted. -/
def appsByGroupIDRoute (groupID : String) : String :=
  adminBaseURL ++ "/groups/" ++ groupID ++ "/apps"

/-- `userProfileRoute`. -/
def userProfileRoute : String :=
  adminBaseURL ++ "/auth/profile"

/-- Modelled from the spec: `models.App` is not under src/; the spec says an
App carries at least the client-facing `ClientAppID`, decoded from JSON
arrays of objects.  We model the identifying field. -/
structure App where
  clientAppID : String
deriving DecidableEq

/-- Decode one JSON value as an App (object; its `client_app_id` field, when
present, must be a string, and an absent field leaves the zero value ""). -/
def decodeOneApp : Json → Option App
  | Json.obj fs =>
    (fs.foldl (fun acc f =>
      match acc with
      | none => none
      | some cur =>
        if lowerStr f.1 = "client_app_id" then
          match f.2 with
          | Json.str s => some (App.mk s)
          | Json.null => some cur
          | _ => none
        else some cur) (some (App.mk "")))
  | _ => none

/-- Decode a list of JSON values as Apps, failing if any element fails. -/
def decodeAppElems : List Json → Option (List App)
  | [] => some []
  | j :: rest =>
    match decodeOneApp j with
    | some a => (decodeAppElems rest).map (fun l => a :: l)
    | none => none

/-- Decode an app-list body: one JSON value that is an array of App objects
(`null` decodes to the empty list, as Go leaves a nil slice). -/
def decodeApps (s : String) : Option (List App) :=
  match goJsonDecodeOne s with
  | some (Json.arr xs) => decodeAppElems xs
  | some Json.null => some []
  | _ => none

/-- Modelled from the spec: `models.UserProfile` is not under src/; the spec
says the profile is JSON-decoded and exposes `AllGroupIDs()`, a deterministic
order-preserving list of all group ids the user belongs to.  We model the
profile as carrying that list. -/
structure UserProfile where
  groupIDs : List String
deriving DecidableEq

/-- `AllGroupIDs()` of a profile: its group ids in profile order. -/
def UserProfile.allGroupIDs (p : UserProfile) : List String := p.groupIDs

/-- Decode a list of JSON values as strings, failing on any non-string. -/
def decodeStringElems : List Json → Option (List String)
  | [] => some []
  | Json.str s :: rest => (decodeStringElems rest).map (fun l => s :: l)
  | _ :: _ => none

/-- Modelled from the spec: decode a profile body — one JSON object whose
`group_ids` field is an array of strings, in order. -/
def decodeUserProfile (s : String) : Option UserProfile :=
  match goJsonDecodeOne s with
  | some (Json.obj fs) =>
    match (fs.find? (fun f => f.1 = "group_ids")).map (fun f => f.2) with
    | some (Json.arr xs) => (decodeStringElems xs).map UserProfile.mk
    | _ => none
  | _ => none

/-- Decode a diff body: one JSON value that is an array of strings (`null`
decodes to the empty list, as Go leaves a nil slice). -/
def decodeDiffs (s : String) : Option (List String) :=
  match goJsonDecodeOne s with
  | some (Json.arr xs) => decodeStringElems xs
  | some Json.null => some []
  | _ => none

/-- Modelled from the spec: `auth.Response` is not under src/; the spec says
it is opaque beyond being JSON-decodable, so we model it as the decoded JSON
value. -/
structure AuthResponse where
  raw : Json

/-- Modelled from the spec: an `auth.AuthenticationProvider` exposes
`Payload()` (a credential value to be JSON-serialized — modelled as the
outcome of `json.Marshal`, which can fail) and `Type()` (a provider-name
string). -/
structure AuthProvider where
  payload : Except String String
  ptype : String

/-- The request `Authenticate` builds: POST to the login route for the
provider's type, the marshalled payload as body, a JSON content type. -/
def authRequest (p : AuthProvider) (body : String) : Request :=
  { method := "POST", url := authProviderLoginRoute p.ptype, body := body,
    headers := [("Content-Type", "application/json")] }

/-- `Authenticate` (src/api/stitch.go lines 85-114): marshal the payload
(failure returns that error before any request), POST to the login route,
propagate a transport failure, and otherwise close the body before returning;
a non-200 status maps to "<status>: failed to authenticate: <normalized>",
and a 200 body is decoded as the auth response (a decode failure is returned
as that error). -/
def Authenticate (exec : Request → Except String Response) (p : AuthProvider) :
    OpResult AuthResponse :=
  match p.payload with
  | Except.error e => ⟨Except.error (GoErr.marshal e), [], []⟩
  | Except.ok body =>
    match exec (authRequest p body) with
    | Except.error e => ⟨Except.error (GoErr.transport e), [authRequest p body], []⟩
    | Except.ok res =>
      if res.statusCode ≠ 200 then
        ⟨Except.error (GoErr.authFailed res.status (UnmarshalReader res.body)),
          [authRequest p body], [res.id]⟩
      else
        match res.body with
        | Except.error e => ⟨Except.error (GoErr.decode e), [authRequest p body], [res.id]⟩
        | Except.ok s =>
          match goJsonDecodeOne s with
          | none => ⟨Except.error (GoErr.decode "json: cannot decode auth response"),
              [authRequest p body], [res.id]⟩
          | some j => ⟨Except.ok (AuthResponse.mk j), [authRequest p body], [res.id]⟩

/-- The request `Export` builds. -/
def exportRequest (groupID appID : String) : Request :=
  { method := "GET", url := appExportRoute groupID appID, body := "", headers := [] }

/-- `mime` parameter whitespace. -/
def isMimeWs (c : Char) : Bool := c = ' ' || c = '\t'

/-- Drop leading mime whitespace. -/
def dropMimeWs : List Char → List Char
  | [] => []
  | c :: cs => if isMimeWs c then dropMimeWs cs else c :: cs

/-- Drop trailing mime whitespace. -/
def trimTrailWs (l : List Char) : List Char :=
  (dropMimeWs l.reverse).reverse

/-- Parse the remainder of a quoted mime parameter value (opening quote
consumed): a backslash escapes any character. -/
def parseQuotedVal : Nat → List Char → Option (List Char × List Char)
  | 0, _ => none
  | _ + 1, [] => none
  | fuel + 1, c :: cs =>
    if c = '"' then some ([], cs)
    else if c = '\\' then
      match cs with
      | [] => none
      | d :: cs2 => (parseQuotedVal fuel cs2).map (fun p => (d :: p.1, p.2))
    else (parseQuotedVal fuel cs).map (fun p => (c :: p.1, p.2))

/-- Parse the `; key=value` parameters of a media type: keys are lowercased,
values may be quoted, a duplicate key is an error (as in Go's `mime`). -/
def parseMimeParams : Nat → List Char → List (String × String) →
    Option (List (String × String))
  | 0, _, _ => none
  | fuel + 1, cs, acc =>
    match dropMimeWs cs with
    | [] => some acc
    | ';' :: rest =>
      (match dropMimeWs rest with
       | [] => some acc
       | rest1 =>
         let kl := rest1.takeWhile (fun c => !(c == '=') && !(c == ';'))
         let rest2 := rest1.dropWhile (fun c => !(c == '=') && !(c == ';'))
         match rest2 with
         | '=' :: rest3 =>
           let key := lowerStr (String.mk (trimTrailWs kl))
           if kl = [] then none
           else if acc.any (fun p => p.1 == key) then none
           else
             (match rest3 with
              | '"' :: rest4 =>
                match parseQuotedVal fuel rest4 with
                | some (v, rest5) => parseMimeParams fuel rest5 (acc ++ [(key, String.mk v)])
                | none => none
              | _ =>
                parseMimeParams fuel (rest3.dropWhile (fun c => !(c == ';')))
                  (acc ++ [(key, String.mk (trimTrailWs (rest3.takeWhile (fun c => !(c == ';')))))]))
         | _ => none)
    | _ => none

/-- Go's `mime.ParseMediaType`, modelled for the media types the export
endpoint produces: the media type up to the first `;` (lowercased, an empty
one is an error), then the parameter list. -/
def parseMediaType (v : String) : Except String (String × List (String × String)) :=
  match dropMimeWs v.data with
  | cs =>
    if trimTrailWs (cs.takeWhile (fun c => !(c == ';'))) = [] then
      Except.error "mime: no media type"
    else
      match parseMimeParams (v.length + 8) (cs.dropWhile (fun c => !(c == ';'))) [] with
      | some ps =>
        Except.ok (lowerStr (String.mk (trimTrailWs (cs.takeWhile (fun c => !(c == ';'))))), ps)
      | none => Except.error "mime: invalid media parameter"

/-- Go map lookup `params[k]` as an option. -/
def getParam (ps : List (String × String)) (k : String) : Option String :=
  (ps.find? (fun p => p.1 == k)).map (fun p => p.2)

/-- `Export` (src/api/stitch.go lines 117-141): GET the export route; a
non-200 status closes the body and returns the normalized error; on 200 the
`Content-Disposition` header is parsed (a parse failure closes the body and
returns that error), an absent or empty `filename` parameter closes the body
and returns `errExportMissingFilename`, and otherwise the filename and the
still-open body are returned. -/
def Export (exec : Request → Except String Response) (groupID appID : String) :
    OpResult (String × Nat) :=
  match exec (exportRequest groupID appID) with
  | Except.error e => ⟨Except.error (GoErr.transport e), [exportRequest groupID appID], []⟩
  | Except.ok res =>
    if res.statusCode ≠ 200 then
      ⟨Except.error (UnmarshalReader res.body), [exportRequest groupID appID], [res.id]⟩
    else
      match parseMediaType res.contentDisposition with
      | Except.error e =>
        ⟨Except.error (GoErr.mimeErr e), [exportRequest groupID appID], [res.id]⟩
      | Except.ok mp =>
        if ((getParam mp.2 "filename").getD "").length = 0 then
          ⟨Except.error GoErr.exportMissingFilename, [exportRequest groupID appID], [res.id]⟩
        else
          ⟨Except.ok ((getParam mp.2 "filename").getD "", res.id),
            [exportRequest groupID appID], []⟩

/-- The request `invokeImportRoute` builds: POST to the import route with the
strategy query parameter, `&diff=true` appended in diff mode, the raw app
data as body and no extra headers. -/
def importRequest (groupID appID appData strategy : String) (diff : Bool) : Request :=
  { method := "POST",
    url := appImportRoute groupID appID ++ "?strategy=" ++ strategy ++
      (if diff then "&diff=true" else ""),
    body := appData, headers := [] }

/-- `invokeImportRoute` (src/api/stitch.go lines 180-189). -/
def invokeImportRoute (exec : Request → Except String Response)
    (groupID appID appData strategy : String) (diff : Bool) : Except String Response :=
  exec (importRequest groupID appID appData strategy diff)

/-- `Import` (src/api/stitch.go lines 165-178): POST via the shared import
route in non-diff mode; propagate a transport failure; close the body; a
non-204 status returns the normalized error and a 204 returns no error. -/
def Import (exec : Request → Except String Response)
    (groupID appID appData strategy : String) : OpResult Unit :=
  match invokeImportRoute exec groupID appID appData strategy false with
  | Except.error e =>
    ⟨Except.error (GoErr.transport e), [importRequest groupID appID appData strategy false], []⟩
  | Except.ok res =>
    if res.statusCode ≠ 204 then
      ⟨Except.error (UnmarshalReader res.body),
        [importRequest groupID appID appData strategy false], [res.id]⟩
    else
      ⟨Except.ok (), [importRequest groupID appID appData strategy false], [res.id]⟩

/-- `Diff` (src/api/stitch.go lines 144-162): POST via the shared import
route in diff mode; propagate a transport failure; close the body; a non-200
status returns the normalized error; a 200 body is decoded as a list of
strings (a decode failure is returned as that error). -/
def Diff (exec : Request → Except String Response)
    (groupID appID appData strategy : String) : OpResult (List String) :=
  match invokeImportRoute exec groupID appID appData strategy true with
  | Except.error e =>
    ⟨Except.error (GoErr.transport e), [importRequest groupID appID appData strategy true], []⟩
  | Except.ok res =>
    if res.statusCode ≠ 200 then
      ⟨Except.error (UnmarshalReader res.body),
        [importRequest groupID appID appData strategy true], [res.id]⟩
    else
      match res.body with
      | Except.error e =>
        ⟨Except.error (GoErr.decode e),
          [importRequest groupID appID appData strategy true], [res.id]⟩
      | Except.ok s =>
        match decodeDiffs s with
        | none =>
          ⟨Except.error (GoErr.decode "json: cannot decode diff list"),
            [importRequest groupID appID appData strategy true], [res.id]⟩
        | some diffs =>
          ⟨Except.ok diffs, [importRequest groupID appID appData strategy true], [res.id]⟩

/-- The request `fetchAppsByGroupID` builds. -/
def appsRequest (groupID : String) : Request :=
  { method := "GET", url := appsByGroupIDRoute groupID, body := "", headers := [] }

/-- `fetchAppsByGroupID` (src/api/stitch.go lines 191-214): GET the group's
app list; propagate a transport failure; close the body; a 404 status yields
nil apps and no error (irrelevant group); any other non-200 status returns
the normalized error; a 200 body is decoded as the app list (a decode
failure is returned as that error). -/
def fetchAppsByGroupID (exec : Request → Except String Response) (groupID : String) :
    OpResult (List App) :=
  match exec (appsRequest groupID) with
  | Except.error e => ⟨Except.error (GoErr.transport e), [appsRequest groupID], []⟩
  | Except.ok res =>
    if res.statusCode ≠ 200 then
      if res.statusCode = 404 then ⟨Except.ok [], [appsRequest groupID], [res.id]⟩
      else ⟨Except.error (UnmarshalReader res.body), [appsRequest groupID], [res.id]⟩
    else
      match res.body with
      | Except.error e => ⟨Except.error (GoErr.decode e), [appsRequest groupID], [res.id]⟩
      | Except.ok s =>
        match decodeApps s with
        | none =>
          ⟨Except.error (GoErr.decode "json: cannot decode app list"),
            [appsRequest groupID], [res.id]⟩
        | some apps => ⟨Except.ok apps, [appsRequest groupID], [res.id]⟩

/-- `findAppByClientAppID` (src/api/stitch.go lines 249-257): first app in
the list whose `ClientAppID` equals the requested id. -/
def findAppByClientAppID (apps : List App) (clientAppID : String) : Option App :=
  match apps with
  | [] => none
  | app :: rest =>
    if app.clientAppID = clientAppID then some app
    else findAppByClientAppID rest clientAppID

/-- The group loop of `FetchAppByClientAppID` (src/api/stitch.go lines
235-244): fetch each group's apps in order, stopping at the first fetch error
or the first matching app; an exhausted list is the not-found error. -/
def searchGroups (exec : Request → Except String Response) (clientAppID : String) :
    List String → OpResult App
  | [] => ⟨Except.error (GoErr.notFound clientAppID), [], []⟩
  | g :: rest =>
    match (fetchAppsByGroupID exec g).result with
    | Except.error e =>
      ⟨Except.error e, (fetchAppsByGroupID exec g).requests, (fetchAppsByGroupID exec g).closed⟩
    | Except.ok apps =>
      match findAppByClientAppID apps clientAppID with
      | some app =>
        ⟨Except.ok app, (fetchAppsByGroupID exec g).requests, (fetchAppsByGroupID exec g).closed⟩
      | none =>
        ⟨(searchGroups exec clientAppID rest).result,
          (fetchAppsByGroupID exec g).requests ++ (searchGroups exec clientAppID rest).requests,
          (fetchAppsByGroupID exec g).closed ++ (searchGroups exec clientAppID rest).closed⟩

/-- The request `FetchAppByClientAppID` builds first. -/
def profileRequest : Request :=
  { method := "GET", url := userProfileRoute, body := "", headers := [] }

/-- `FetchAppByClientAppID` (src/api/stitch.go lines 217-247): GET the user
profile; propagate a transport failure; close the body; a non-200 status
returns the normalized error; decode the profile (a decode failure is
returned as that error); then search the profile's groups in order. -/
def FetchAppByClientAppID (exec : Request → Except String Response)
    (clientAppID : String) : OpResult App :=
  match exec profileRequest with
  | Except.error e => ⟨Except.error (GoErr.transport e), [profileRequest], []⟩
  | Except.ok res =>
    if res.statusCode ≠ 200 then
      ⟨Except.error (UnmarshalReader res.body), [profileRequest], [res.id]⟩
    else
      match res.body with
      | Except.error e => ⟨Except.error (GoErr.decode e), [profileRequest], [res.id]⟩
      | Except.ok s =>
        match decodeUserProfile s with
        | none =>
          ⟨Except.error (GoErr.decode "json: cannot decode user profile"),
            [profileRequest], [res.id]⟩
        | some profileData =>
          ⟨(searchGroups exec clientAppID profileData.allGroupIDs).result,
            profileRequest :: (searchGroups exec clientAppID profileData.allGroupIDs).requests,
            res.id :: (searchGroups exec clientAppID profileData.allGroupIDs).closed⟩

/-- The first app, scanning each group's decoded list in order, whose
`ClientAppID` matches — the search order the spec describes for
`FetchAppByClientAppID`. -/
def firstMatch (appLists : List (List App)) (clientAppID : String) : Option App :=
  match appLists with
  | [] => none
  | apps :: rest =>
    match findAppByClientAppID apps clientAppID with
    | some app => some app
    | none => firstMatch rest clientAppID

/-- A 204 import response. -/
def c6res : Response := ⟨0, 204, "204 No Content", "", Except.ok ""⟩

/-- A transport that always answers with `c6res`. -/
def c6exec : Request → Except String Response := fun _ => Except.ok c6res

/-- A provider whose payload cannot be marshalled. -/
def c10prov : AuthProvider := ⟨Except.error "json: unsupported type", "local-userpass"⟩

/-- A transport that would answer 200 if it were ever called. -/
def c10exec : Request → Except String Response :=
  fun _ => Except.ok ⟨0, 200, "200 OK", "", Except.ok "\x7b\x7d"⟩

/-- A provider with a marshallable (empty-object) payload. -/
def c7prov : AuthProvider := ⟨Except.ok "\x7b\x7d", "local-userpass"⟩

/-- A 401 login response with a normalizable error body. -/
def c7res : Response :=
  ⟨0, 401, "401 Unauthorized", "", Except.ok "\x7b\"error\":\"invalid session\"\x7d"⟩

/-- A transport that always answers with `c7res`. -/
def c7exec : Request → Except String Response := fun _ => Except.ok c7res

/-- A 200 export response carrying a filename in its Content-Disposition. -/
def c4res : Response :=
  ⟨5, 200, "200 OK", "attachment; filename=app.zip", Except.ok "zipbytes"⟩

/-- A transport that always answers with `c4res`. -/
def c4exec : Request → Except String Response := fun _ => Except.ok c4res

/-- A 200 profile response listing the groups g1 and g2. -/
def c2profileRes : Response :=
  ⟨0, 200, "200 OK", "", Except.ok "\x7b\"group_ids\":[\"g1\",\"g2\"]\x7d"⟩

/-- A 404 app-list response (irrelevant group). -/
def c2g1Res : Response := ⟨1, 404, "404 Not Found", "", Except.ok ""⟩

/-- A 200 app-list response containing the app with client id x. -/
def c2g2Res : Response :=
  ⟨2, 200, "200 OK", "", Except.ok "[\x7b\"client_app_id\":\"x\"\x7d]"⟩

/-- A transport for the group search: profile lists g1 and g2, g1's app list
is a 404 and g2's contains the app x. -/
def c2exec : Request → Except String Response := fun r =>
  if r.url = appsByGroupIDRoute "g1" then Except.ok c2g1Res
  else if r.url = appsByGroupIDRoute "g2" then Except.ok c2g2Res
  else Except.ok c2profileRes

/-- The app lists the `c2exec` groups decode to. -/
def c2L : String → List App := fun g => if g = "g2" then [App.mk "x"] else []

/-- A 404 app-list response (id 1). -/
def c3g1Res : Response := ⟨1, 404, "404 Not Found", "", Except.ok ""⟩

/-- A 500 app-list response with a normalizable error body (id 2). -/
def c3badRes : Response :=
  ⟨2, 500, "500 Internal Server Error", "", Except.ok "\x7b\"error\":\"server error\"\x7d"⟩

/-- A 200 empty app-list response (id 3). -/
def c3g3Res : Response := ⟨3, 200, "200 OK", "", Except.ok "[]"⟩

/-- A transport where g1's app list is a 404, gbad's answers 500 and every
other group's list is empty. -/
def c3exec : Request → Except String Response := fun r =>
  if r.url = appsByGroupIDRoute "g1" then Except.ok c3g1Res
  else if r.url = appsByGroupIDRoute "gbad" then Except.ok c3badRes
  else Except.ok c3g3Res

/-- C1: for every body whose bytes read successfully, `UnmarshalReader`
returns an `ErrStitchResponse` whose message is the decoded `error` field
when the bytes JSON-decode into the (error: string) shape — even when that
field is the empty string — and the raw buffered body text verbatim when
decoding fails for any reason (malformed JSON, wrong shape, empty body); the
returned value's string representation is "error: " followed by that
message.  Concrete decodes: a normal error object, an empty `error` field,
malformed JSON, and an empty body. -/
theorem UnmarshalReader_error_normalization (body : String) :
    UnmarshalReader (Except.ok body) =
      GoErr.stitch ((decodeErrStitchBody body).getD body) ∧
    (UnmarshalReader (Except.ok body)).message =
      "error: " ++ (decodeErrStitchBody body).getD body ∧
    decodeErrStitchBody "\x7b\"error\":\"something went wrong\"\x7d" =
      some "something went wrong" ∧
    decodeErrStitchBody "\x7b\"error\":\"\"\x7d" = some "" ∧
    decodeErrStitchBody "not json" = none ∧
    decodeErrStitchBody "" = none := by
  refine ⟨?_, ?_, by decide, by decide, by decide, by decide⟩
  · cases h : decodeErrStitchBody body <;> simp [UnmarshalReader, h]
  · cases h : decodeErrStitchBody body <;> simp [UnmarshalReader, h, GoErr.message]

/-- C8: constructing the normalized error never fails — for every readable
body `UnmarshalReader` returns some `ErrStitchResponse` (degrading to the raw
body text as the message) — and the only case in which it propagates a
different error is when reading the body stream itself fails, in which case
it returns that underlying I/O error unchanged. -/
theorem UnmarshalReader_total_and_read_failure (s e : String) :
    (∃ msg, UnmarshalReader (Except.ok s) = GoErr.stitch msg) ∧
    UnmarshalReader (Except.error e) = GoErr.ioRead e ∧
    (GoErr.ioRead e).message = e := by
  refine ⟨⟨(decodeErrStitchBody s).getD s, ?_⟩, rfl, rfl⟩
  cases h : decodeErrStitchBody s <;> simp [UnmarshalReader, h]

/-- The requests `Import` issues: exactly the one shared-route request in
non-diff mode, on every transport outcome. -/
theorem Import_requests (exec : Request → Except String Response)
    (groupID appID appData strategy : String) :
    (Import exec groupID appID appData strategy).requests =
      [importRequest groupID appID appData strategy false] := by
  unfold Import invokeImportRoute
  cases exec (importRequest groupID appID appData strategy false) with
  | error e => rfl
  | ok res =>
    by_cases hs : res.statusCode ≠ 204
    · simp [hs]
    · simp [hs]

/-- The requests `Diff` issues: exactly the one shared-route request in diff
mode, on every transport outcome. -/
theorem Diff_requests (exec : Request → Except String Response)
    (groupID appID appData strategy : String) :
    (Diff exec groupID appID appData strategy).requests =
      [importRequest groupID appID appData strategy true] := by
  unfold Diff invokeImportRoute
  cases exec (importRequest groupID appID appData strategy true) with
  | error e => rfl
  | ok res =>
    dsimp only
    split
    · rfl
    · split
      · rfl
      · split <;> rfl

/-- C5: for all groupID, appID, appData and strategy, both `Import` and
`Diff` issue exactly one POST to
/groups/(groupID)/apps/(appID)/import?strategy=(strategy) with the raw
appData bytes as body and no extra headers; `Diff` appends exactly
`&diff=true` and `Import` omits it; in particular `Diff` with the spec's
example arguments targets .../groups/g1/apps/a1/import?strategy=merge&diff=true. -/
theorem Import_Diff_route_construction (exec : Request → Except String Response)
    (groupID appID appData strategy : String) :
    (Diff exec groupID appID appData strategy).requests =
      [{ method := "POST",
         url := adminBaseURL ++ "/groups/" ++ groupID ++ "/apps/" ++ appID ++
           "/import?strategy=" ++ strategy ++ "&diff=true",
         body := appData, headers := [] }] ∧
    (Import exec groupID appID appData strategy).requests =
      [{ method := "POST",
         url := adminBaseURL ++ "/groups/" ++ groupID ++ "/apps/" ++ appID ++
           "/import?strategy=" ++ strategy,
         body := appData, headers := [] }] ∧
    (importRequest "g1" "a1" appData "merge" true).url =
      adminBaseURL ++ "/groups/g1/apps/a1/import?strategy=merge&diff=true" := by
  refine ⟨?_, ?_, rfl⟩
  · rw [Diff_requests]
    refine congrArg (fun u => [u]) ?_
    unfold importRequest appImportRoute
    refine congrArg (fun u => Request.mk "POST" u appData []) ?_
    rw [String.append_assoc
      (adminBaseURL ++ "/groups/" ++ groupID ++ "/apps/" ++ appID) "/import" "?strategy="]
    exact rfl
  · rw [Import_requests]
    refine congrArg (fun u => [u]) ?_
    unfold importRequest appImportRoute
    refine congrArg (fun u => Request.mk "POST" u appData []) ?_
    rw [show (if false then "&diff=true" else "") = "" from rfl, String.append_empty,
      String.append_assoc
        (adminBaseURL ++ "/groups/" ++ groupID ++ "/apps/" ++ appID) "/import" "?strategy="]
    exact rfl

/-- C6: `Import` returns no error if and only if the response status is 204,
and every other status yields the normalized service error produced from the
response body. -/
theorem Import_success_iff_204 (exec : Request → Except String Response)
    (groupID appID appData strategy : String) (res : Response)
    (h : exec (importRequest groupID appID appData strategy false) = Except.ok res) :
    ((Import exec groupID appID appData strategy).result = Except.ok () ↔
      res.statusCode = 204) ∧
    (res.statusCode ≠ 204 →
      (Import exec groupID appID appData strategy).result =
        Except.error (UnmarshalReader res.body)) := by
  unfold Import invokeImportRoute
  rw [h]
  by_cases hs : res.statusCode = 204
  · simp [hs]
  · simp [hs]

theorem Import_success_iff_204_witness :
    ((Import c6exec "g1" "a1" "appdata" "merge").result = Except.ok () ↔
      c6res.statusCode = 204) ∧
    (c6res.statusCode ≠ 204 →
      (Import c6exec "g1" "a1" "appdata" "merge").result =
        Except.error (UnmarshalReader c6res.body)) :=
  Import_success_iff_204 c6exec "g1" "a1" "appdata" "merge" c6res rfl

/-- C10: if serializing the authentication provider's payload fails,
`Authenticate` returns that serialization error immediately and issues no
request to the transport. -/
theorem Authenticate_marshal_failure_no_request (exec : Request → Except String Response)
    (p : AuthProvider) (e : String) (h : p.payload = Except.error e) :
    (Authenticate exec p).result = Except.error (GoErr.marshal e) ∧
    (Authenticate exec p).requests = [] := by
  unfold Authenticate
  rw [h]
  exact ⟨rfl, rfl⟩

theorem Authenticate_marshal_failure_no_request_witness :
    (Authenticate c10exec c10prov).result =
      Except.error (GoErr.marshal "json: unsupported type") ∧
    (Authenticate c10exec c10prov).requests = [] :=
  Authenticate_marshal_failure_no_request c10exec c10prov "json: unsupported type" rfl

/-- C7: when the login call yields a response, a non-200 status makes
`Authenticate` fail with an error whose message is exactly the HTTP status
text, then ": failed to authenticate: ", then the normalized error's string
representation; on a 200 status the body is decoded as an AuthResponse, a
decode failure being returned as a fatal error distinct from a normalized
service error, and a decodable body is returned as the auth response. -/
theorem Authenticate_status_and_decode_discipline (exec : Request → Except String Response)
    (p : AuthProvider) (body : String) (res : Response)
    (hp : p.payload = Except.ok body)
    (hr : exec (authRequest p body) = Except.ok res) :
    (res.statusCode ≠ 200 →
      (Authenticate exec p).result =
        Except.error (GoErr.authFailed res.status (UnmarshalReader res.body)) ∧
      (GoErr.authFailed res.status (UnmarshalReader res.body)).message =
        res.status ++ ": failed to authenticate: " ++ (UnmarshalReader res.body).message) ∧
    (∀ s, res.statusCode = 200 → res.body = Except.ok s → goJsonDecodeOne s = none →
      (Authenticate exec p).result =
        Except.error (GoErr.decode "json: cannot decode auth response") ∧
      ∀ msg, GoErr.decode "json: cannot decode auth response" ≠ GoErr.stitch msg) ∧
    (∀ s j, res.statusCode = 200 → res.body = Except.ok s → goJsonDecodeOne s = some j →
      (Authenticate exec p).result = Except.ok (AuthResponse.mk j)) := by
  unfold Authenticate
  rw [hp]
  dsimp only
  rw [hr]
  dsimp only
  refine ⟨fun hs => ?_, fun s hs hb hj => ?_, fun s j hs hb hj => ?_⟩
  · rw [if_pos hs]
    exact ⟨rfl, rfl⟩
  · rw [if_neg (fun hne => hne hs), hb]
    dsimp only
    rw [hj]
    exact ⟨rfl, fun msg h => GoErr.noConfusion h⟩
  · rw [if_neg (fun hne => hne hs), hb]
    dsimp only
    rw [hj]

theorem Authenticate_status_and_decode_discipline_witness :
    (c7res.statusCode ≠ 200 →
      (Authenticate c7exec c7prov).result =
        Except.error (GoErr.authFailed c7res.status (UnmarshalReader c7res.body)) ∧
      (GoErr.authFailed c7res.status (UnmarshalReader c7res.body)).message =
        c7res.status ++ ": failed to authenticate: " ++ (UnmarshalReader c7res.body).message) ∧
    (∀ s, c7res.statusCode = 200 → c7res.body = Except.ok s → goJsonDecodeOne s = none →
      (Authenticate c7exec c7prov).result =
        Except.error (GoErr.decode "json: cannot decode auth response") ∧
      ∀ msg, GoErr.decode "json: cannot decode auth response" ≠ GoErr.stitch msg) ∧
    (∀ s j, c7res.statusCode = 200 → c7res.body = Except.ok s → goJsonDecodeOne s = some j →
      (Authenticate c7exec c7prov).result = Except.ok (AuthResponse.mk j)) :=
  Authenticate_status_and_decode_discipline c7exec c7prov "\x7b\x7d" c7res rfl rfl

/-- C4: when the export call yields a response, a non-200 status closes the
body and returns only the normalized error (no filename, no stream); on a
200 status whose Content-Disposition parses as a media type, an absent or
empty `filename` parameter closes the body and fails with "the app export
response did not specify a filename", while a non-empty `filename` is
returned together with the still-open body stream (the body is not closed:
ownership transfers to the caller). -/
theorem Export_contract (exec : Request → Except String Response) (groupID appID : String)
    (res : Response) (hr : exec (exportRequest groupID appID) = Except.ok res) :
    (res.statusCode ≠ 200 →
      Export exec groupID appID =
        ⟨Except.error (UnmarshalReader res.body), [exportRequest groupID appID], [res.id]⟩) ∧
    (∀ mt params, res.statusCode = 200 →
      parseMediaType res.contentDisposition = Except.ok (mt, params) →
      (((getParam params "filename").getD "").length = 0 →
        Export exec groupID appID =
          ⟨Except.error GoErr.exportMissingFilename, [exportRequest groupID appID], [res.id]⟩ ∧
        GoErr.exportMissingFilename.message =
          "the app export response did not specify a filename") ∧
      (∀ f, getParam params "filename" = some f → f.length ≠ 0 →
        Export exec groupID appID =
          ⟨Except.ok (f, res.id), [exportRequest groupID appID], []⟩)) := by
  unfold Export
  rw [hr]
  dsimp only
  refine ⟨fun hs => by rw [if_pos hs], fun mt params hs hpm => ?_⟩
  rw [if_neg (fun hne => hne hs), hpm]
  dsimp only
  refine ⟨fun hf => ?_, fun f hf hnz => ?_⟩
  · rw [if_pos hf]
    exact ⟨rfl, rfl⟩
  · simp only [hf, Option.getD_some]
    rw [if_neg hnz]

theorem Export_contract_witness :
    (c4res.statusCode ≠ 200 →
      Export c4exec "g1" "a1" =
        ⟨Except.error (UnmarshalReader c4res.body), [exportRequest "g1" "a1"], [c4res.id]⟩) ∧
    (∀ mt params, c4res.statusCode = 200 →
      parseMediaType c4res.contentDisposition = Except.ok (mt, params) →
      (((getParam params "filename").getD "").length = 0 →
        Export c4exec "g1" "a1" =
          ⟨Except.error GoErr.exportMissingFilename, [exportRequest "g1" "a1"], [c4res.id]⟩ ∧
        GoErr.exportMissingFilename.message =
          "the app export response did not specify a filename") ∧
      (∀ f, getParam params "filename" = some f → f.length ≠ 0 →
        Export c4exec "g1" "a1" =
          ⟨Except.ok (f, c4res.id), [exportRequest "g1" "a1"], []⟩)) :=
  Export_contract c4exec "g1" "a1" c4res rfl

/-- When every group's fetch succeeds, the search loop returns the first
match over the decoded lists in group order, or the not-found error. -/
theorem searchGroups_ok_result (exec : Request → Except String Response) (cid : String)
    (L : String → List App) :
    ∀ groups : List String,
      (∀ g ∈ groups, (fetchAppsByGroupID exec g).result = Except.ok (L g)) →
      (searchGroups exec cid groups).result =
        (match firstMatch (groups.map L) cid with
         | some app => Except.ok app
         | none => Except.error (GoErr.notFound cid)) := by
  intro groups
  induction groups with
  | nil => intro _; rfl
  | cons g rest ih =>
    intro hall
    have hg := hall g (List.mem_cons_self g rest)
    have hrest := fun x hx => hall x (List.mem_cons_of_mem g hx)
    unfold searchGroups
    rw [hg]
    dsimp only [List.map_cons]
    cases hf : findAppByClientAppID (L g) cid with
    | some app => simp [firstMatch, hf]
    | none => simp [firstMatch, hf, ih hrest]

/-- C2: when the profile call succeeds and decodes, and every listed group's
app list fetch succeeds, `FetchAppByClientAppID` returns the first app —
scanning the groups in `AllGroupIDs()` order and each group's decoded list
in order — whose `ClientAppID` equals the requested id, and otherwise fails
with the error whose message is exactly `unable to find app with ID:` and
the requested id quoted. -/
theorem FetchApp_first_match (exec : Request → Except String Response) (clientAppID : String)
    (res : Response) (pbody : String) (profileData : UserProfile) (L : String → List App)
    (hp : exec profileRequest = Except.ok res)
    (hs : res.statusCode = 200)
    (hb : res.body = Except.ok pbody)
    (hd : decodeUserProfile pbody = some profileData)
    (hL : ∀ g ∈ profileData.allGroupIDs, (fetchAppsByGroupID exec g).result = Except.ok (L g)) :
    (FetchAppByClientAppID exec clientAppID).result =
      (match firstMatch (profileData.allGroupIDs.map L) clientAppID with
       | some app => Except.ok app
       | none => Except.error (GoErr.notFound clientAppID)) ∧
    (GoErr.notFound clientAppID).message =
      "unable to find app with ID: " ++ goQuote clientAppID ∧
    goQuote "abc123" = "\"abc123\"" := by
  refine ⟨?_, rfl, by decide⟩
  unfold FetchAppByClientAppID
  rw [hp]
  dsimp only
  rw [if_neg (fun hne => hne hs), hb]
  dsimp only
  rw [hd]
  exact searchGroups_ok_result exec clientAppID L profileData.allGroupIDs hL

theorem FetchApp_first_match_witness :
    (FetchAppByClientAppID c2exec "x").result =
      (match firstMatch (((UserProfile.mk ["g1", "g2"]).allGroupIDs).map c2L) "x" with
       | some app => Except.ok app
       | none => Except.error (GoErr.notFound "x")) ∧
    (GoErr.notFound "x").message = "unable to find app with ID: " ++ goQuote "x" ∧
    goQuote "abc123" = "\"abc123\"" :=
  FetchApp_first_match c2exec "x" c2profileRes "\x7b\"group_ids\":[\"g1\",\"g2\"]\x7d"
    (UserProfile.mk ["g1", "g2"]) c2L rfl rfl rfl rfl
    (by
      intro g hg
      simp only [UserProfile.allGroupIDs, List.mem_cons, List.mem_singleton,
        List.not_mem_nil, or_false] at hg
      rcases hg with rfl | rfl
      · rfl
      · rfl)

/-- The one-step equation of the group-search loop. -/
theorem searchGroups_cons (exec : Request → Except String Response) (cid g : String)
    (rest : List String) :
    searchGroups exec cid (g :: rest) =
      (match (fetchAppsByGroupID exec g).result with
       | Except.error e =>
         ⟨Except.error e, (fetchAppsByGroupID exec g).requests,
           (fetchAppsByGroupID exec g).closed⟩
       | Except.ok apps =>
         match findAppByClientAppID apps cid with
         | some app =>
           ⟨Except.ok app, (fetchAppsByGroupID exec g).requests,
             (fetchAppsByGroupID exec g).closed⟩
         | none =>
           ⟨(searchGroups exec cid rest).result,
             (fetchAppsByGroupID exec g).requests ++ (searchGroups exec cid rest).requests,
             (fetchAppsByGroupID exec g).closed ++ (searchGroups exec cid rest).closed⟩) := rfl

/-- C3: a 404 status on a group's app-list call is not an error — the fetch
yields an empty app list (and any other non-200 status, or a decode failure
of a 200 list, is a fatal error); inside the group search a group whose
fetch yields the empty list lets the search continue with the remaining
groups (their requests are still issued), while a group whose fetch fails
aborts the whole search immediately with that error, issuing no request for
the remaining groups.  Concretely, under `c3exec` the 404 group g1 yields the
empty list, and searching g1, gbad, g3 stops at gbad's 500 with the
normalized error, never requesting g3's list. -/
theorem fetchApps_404_tolerated_and_errors_abort (exec : Request → Except String Response)
    (g cid : String) (rest : List String) :
    (∀ res, exec (appsRequest g) = Except.ok res → res.statusCode = 404 →
      fetchAppsByGroupID exec g = ⟨Except.ok [], [appsRequest g], [res.id]⟩) ∧
    (∀ res, exec (appsRequest g) = Except.ok res → res.statusCode ≠ 200 →
      res.statusCode ≠ 404 →
      fetchAppsByGroupID exec g =
        ⟨Except.error (UnmarshalReader res.body), [appsRequest g], [res.id]⟩) ∧
    (∀ res s, exec (appsRequest g) = Except.ok res → res.statusCode = 200 →
      res.body = Except.ok s → decodeApps s = none →
      fetchAppsByGroupID exec g =
        ⟨Except.error (GoErr.decode "json: cannot decode app list"),
          [appsRequest g], [res.id]⟩) ∧
    ((fetchAppsByGroupID exec g).result = Except.ok [] →
      (searchGroups exec cid (g :: rest)).result = (searchGroups exec cid rest).result ∧
      (searchGroups exec cid (g :: rest)).requests =
        (fetchAppsByGroupID exec g).requests ++ (searchGroups exec cid rest).requests) ∧
    (∀ e, (fetchAppsByGroupID exec g).result = Except.error e →
      searchGroups exec cid (g :: rest) =
        ⟨Except.error e, (fetchAppsByGroupID exec g).requests,
          (fetchAppsByGroupID exec g).closed⟩) ∧
    fetchAppsByGroupID c3exec "g1" = ⟨Except.ok [], [appsRequest "g1"], [1]⟩ ∧
    searchGroups c3exec "x" ["g1", "gbad", "g3"] =
      ⟨Except.error (GoErr.stitch "server error"), [appsRequest "g1", appsRequest "gbad"],
        [1, 2]⟩ := by
  refine ⟨fun res hr h404 => ?_, fun res hr hne h404 => ?_, fun res s hr h200 hb hd => ?_,
    fun hok => ?_, fun e he => ?_, rfl, rfl⟩
  · unfold fetchAppsByGroupID
    rw [hr]
    dsimp only
    rw [if_pos (show res.statusCode ≠ 200 by simp [h404]), if_pos h404]
  · unfold fetchAppsByGroupID
    rw [hr]
    dsimp only
    rw [if_pos hne, if_neg h404]
  · unfold fetchAppsByGroupID
    rw [hr]
    dsimp only
    rw [if_neg (fun hx => hx h200), hb]
    dsimp only
    rw [hd]
  · rw [searchGroups_cons, hok]
    dsimp only [findAppByClientAppID]
    exact ⟨rfl, rfl⟩
  · rw [searchGroups_cons, he]

/-- Responses received for concatenated request lists. -/
theorem receivedIds_append (exec : Request → Except String Response)
    (l1 l2 : List Request) :
    receivedIds exec (l1 ++ l2) = receivedIds exec l1 ++ receivedIds exec l2 := by
  simp [receivedIds, List.filterMap_append]

/-- A group's app-list fetch closes exactly the bodies it received. -/
theorem fetchApps_closed (exec : Request → Except String Response) (g : String) :
    (fetchAppsByGroupID exec g).closed =
      receivedIds exec (fetchAppsByGroupID exec g).requests := by
  unfold fetchAppsByGroupID
  cases h : exec (appsRequest g) with
  | error e => simp [receivedIds, h]
  | ok res =>
    dsimp only
    split
    · split
      · simp [receivedIds, h]
      · simp [receivedIds, h]
    · split
      · simp [receivedIds, h]
      · split <;> simp [receivedIds, h]

/-- The group-search loop closes exactly the bodies it received. -/
theorem searchGroups_closed (exec : Request → Except String Response) (cid : String) :
    ∀ groups : List String,
      (searchGroups exec cid groups).closed =
        receivedIds exec (searchGroups exec cid groups).requests := by
  intro groups
  induction groups with
  | nil => simp [searchGroups, receivedIds]
  | cons g rest ih =>
    rw [searchGroups_cons]
    cases hres : (fetchAppsByGroupID exec g).result with
    | error e =>
      dsimp only
      exact fetchApps_closed exec g
    | ok apps =>
      dsimp only
      cases findAppByClientAppID apps cid with
      | some app =>
        dsimp only
        exact fetchApps_closed exec g
      | none =>
        dsimp only
        rw [receivedIds_append, fetchApps_closed exec g, ih]

/-- `Export` when the transport fails. -/
theorem Export_eq_transport (exec : Request → Except String Response) (g a e : String)
    (h : exec (exportRequest g a) = Except.error e) :
    Export exec g a = ⟨Except.error (GoErr.transport e), [exportRequest g a], []⟩ := by
  unfold Export
  rw [h]

/-- `Export` on a non-200 response. -/
theorem Export_eq_non200 (exec : Request → Except String Response) (g a : String)
    (res : Response) (h : exec (exportRequest g a) = Except.ok res)
    (hs : res.statusCode ≠ 200) :
    Export exec g a =
      ⟨Except.error (UnmarshalReader res.body), [exportRequest g a], [res.id]⟩ := by
  unfold Export
  rw [h]
  dsimp only
  rw [if_pos hs]

/-- `Export` on a 200 response whose Content-Disposition does not parse. -/
theorem Export_eq_mimeErr (exec : Request → Except String Response) (g a : String)
    (res : Response) (em : String) (h : exec (exportRequest g a) = Except.ok res)
    (hs : res.statusCode = 200)
    (hpm : parseMediaType res.contentDisposition = Except.error em) :
    Export exec g a = ⟨Except.error (GoErr.mimeErr em), [exportRequest g a], [res.id]⟩ := by
  unfold Export
  rw [h]
  dsimp only
  rw [if_neg (fun hne => hne hs), hpm]

/-- `Export` on a 200 response with no (or an empty) filename parameter. -/
theorem Export_eq_noFilename (exec : Request → Except String Response) (g a : String)
    (res : Response) (mt : String) (params : List (String × String))
    (h : exec (exportRequest g a) = Except.ok res) (hs : res.statusCode = 200)
    (hpm : parseMediaType res.contentDisposition = Except.ok (mt, params))
    (hf : ((getParam params "filename").getD "").length = 0) :
    Export exec g a =
      ⟨Except.error GoErr.exportMissingFilename, [exportRequest g a], [res.id]⟩ := by
  unfold Export
  rw [h]
  dsimp only
  rw [if_neg (fun hne => hne hs), hpm]
  dsimp only
  rw [if_pos hf]

/-- `Export` on a 200 response with a non-empty filename parameter. -/
theorem Export_eq_success (exec : Request → Except String Response) (g a : String)
    (res : Response) (mt : String) (params : List (String × String))
    (h : exec (exportRequest g a) = Except.ok res) (hs : res.statusCode = 200)
    (hpm : parseMediaType res.contentDisposition = Except.ok (mt, params))
    (hf : ¬ ((getParam params "filename").getD "").length = 0) :
    Export exec g a =
      ⟨Except.ok ((getParam params "filename").getD "", res.id), [exportRequest g a], []⟩ := by
  unfold Export
  rw [h]
  dsimp only
  rw [if_neg (fun hne => hne hs), hpm]
  dsimp only
  rw [if_neg hf]

/-- C9: every domain operation closes the response body of every response it
received, on success and on failure, before returning — `Authenticate`,
`Import`, `Diff`, `FetchAppByClientAppID` with its group sub-requests, and
`Export`'s failure paths — with the single exception of `Export`'s success
path, which closes nothing and returns the one received body still open as
the stream handed to the caller. -/
theorem resource_discipline (exec : Request → Except String Response) (p : AuthProvider)
    (groupID appID appData strategy clientAppID : String) :
    (Authenticate exec p).closed = receivedIds exec (Authenticate exec p).requests ∧
    (Import exec groupID appID appData strategy).closed =
      receivedIds exec (Import exec groupID appID appData strategy).requests ∧
    (Diff exec groupID appID appData strategy).closed =
      receivedIds exec (Diff exec groupID appID appData strategy).requests ∧
    (FetchAppByClientAppID exec clientAppID).closed =
      receivedIds exec (FetchAppByClientAppID exec clientAppID).requests ∧
    (∀ e, (Export exec groupID appID).result = Except.error e →
      (Export exec groupID appID).closed =
        receivedIds exec (Export exec groupID appID).requests) ∧
    (∀ f sid, (Export exec groupID appID).result = Except.ok (f, sid) →
      (Export exec groupID appID).closed = [] ∧
      receivedIds exec (Export exec groupID appID).requests = [sid]) := by
  refine ⟨?_, ?_, ?_, ?_, ?_, ?_⟩
  · cases hp : p.payload with
    | error e => simp [Authenticate, hp, receivedIds]
    | ok body =>
      unfold Authenticate
      rw [hp]
      dsimp only
      cases h : exec (authRequest p body) with
      | error e => simp [receivedIds, h]
      | ok res =>
        dsimp only
        split
        · simp [receivedIds, h]
        · split
          · simp [receivedIds, h]
          · split <;> simp [receivedIds, h]
  · unfold Import invokeImportRoute
    cases h : exec (importRequest groupID appID appData strategy false) with
    | error e => simp [receivedIds, h]
    | ok res =>
      dsimp only
      split <;> simp [receivedIds, h]
  · unfold Diff invokeImportRoute
    cases h : exec (importRequest groupID appID appData strategy true) with
    | error e => simp [receivedIds, h]
    | ok res =>
      dsimp only
      split
      · simp [receivedIds, h]
      · split
        · simp [receivedIds, h]
        · split <;> simp [receivedIds, h]
  · unfold FetchAppByClientAppID
    cases h : exec profileRequest with
    | error e => simp [receivedIds, h]
    | ok res =>
      dsimp only
      split
      · simp [receivedIds, h]
      · split
        · simp [receivedIds, h]
        · split
          · simp [receivedIds, h]
          · simp [receivedIds, h, List.filterMap_cons, searchGroups_closed exec clientAppID]
  · intro e he
    cases h : exec (exportRequest groupID appID) with
    | error e2 =>
      rw [Export_eq_transport exec groupID appID e2 h]
      simp [receivedIds, h]
    | ok res =>
      by_cases hs : res.statusCode = 200
      · cases hpm : parseMediaType res.contentDisposition with
        | error em =>
          rw [Export_eq_mimeErr exec groupID appID res em h hs hpm]
          simp [receivedIds, h]
        | ok mp =>
          by_cases hf : ((getParam mp.2 "filename").getD "").length = 0
          · rw [Export_eq_noFilename exec groupID appID res mp.1 mp.2 h hs hpm hf]
            simp [receivedIds, h]
          · rw [Export_eq_success exec groupID appID res mp.1 mp.2 h hs hpm hf] at he
            exact Except.noConfusion he
      · rw [Export_eq_non200 exec groupID appID res h hs]
        simp [receivedIds, h]
  · intro f sid he
    cases h : exec (exportRequest groupID appID) with
    | error e2 =>
      rw [Export_eq_transport exec groupID appID e2 h] at he
      exact Except.noConfusion he
    | ok res =>
      by_cases hs : res.statusCode = 200
      · cases hpm : parseMediaType res.contentDisposition with
        | error em =>
          rw [Export_eq_mimeErr exec groupID appID res em h hs hpm] at he
          exact Except.noConfusion he
        | ok mp =>
          by_cases hf : ((getParam mp.2 "filename").getD "").length = 0
          · rw [Export_eq_noFilename exec groupID appID res mp.1 mp.2 h hs hpm hf] at he
            exact Except.noConfusion he
          · rw [Export_eq_success exec groupID appID res mp.1 mp.2 h hs hpm hf] at he ⊢
            have hsid : sid = res.id := (congrArg Prod.snd (Except.ok.inj he)).symm
            subst hsid
            exact ⟨rfl, by simp [receivedIds, h]⟩
      · rw [Export_eq_non200 exec groupID appID res h hs] at he
        exact Except.noConfusion he
